import Mathlib

/-!
Verification of the markdown-to-HTML converter (`markdown2html.py`).

The development shallowly embeds the converter: the inline formatter
(four sequential regex substitutions), the MD5 digest used by the
`[[...]]` substitution, the block classifier (`parse_heading`,
`parse_list_item`), the block state machine of
`convert_markdown_to_html`, and the CLI entry point `main`.
-/

namespace MD2HTML

/-! ## Python string helpers -/

/-- Characters removed by Python `str.rstrip()` with no argument. -/
def pyIsSpace (c : Char) : Bool :=
  c = ' ' || c = '\t' || c = '\n' || c = '\r' || c = '\x0b' || c = '\x0c'

/-- Embedding of Python `line.rstrip()`: drop trailing whitespace. -/
def pyRstrip (s : String) : String :=
  String.mk ((s.data.reverse.dropWhile pyIsSpace).reverse)

/-- Split a character list at newline characters (the pieces between them). -/
def splitNL : List Char → List (List Char)
  | [] => [[]]
  | c :: rest =>
    match splitNL rest with
    | [] => [[c]]
    | h :: t => if c = '\n' then [] :: h :: t else (c :: h) :: t

/-- Lines produced by Python text-file iteration of `content`, after the
iteration's trailing-newline behaviour: a final newline produces no extra
empty line. -/
def fileLines (content : String) : List String :=
  let parts := splitNL content.data
  (if parts.getLast? = some [] then parts.dropLast else parts).map String.mk

/-! ## MD5 (the digest behind `hashlib.md5(...).hexdigest()`) -/

/-- UTF-8 encoding of a single code point, as `str.encode()` would emit. -/
def utf8Char (c : Char) : List Nat :=
  let n := c.toNat
  if n < 128 then [n]
  else if n < 2048 then [192 + (n >>> 6), 128 + (n % 64)]
  else if n < 65536 then [224 + (n >>> 12), 128 + ((n >>> 6) % 64), 128 + (n % 64)]
  else [240 + (n >>> 18), 128 + ((n >>> 12) % 64), 128 + ((n >>> 6) % 64), 128 + (n % 64)]

/-- UTF-8 bytes of a character list. -/
def utf8Encode (l : List Char) : List Nat :=
  (l.map utf8Char).flatten

/-- The 64 MD5 sine-derived round constants (RFC 1321). -/
def md5K : List Nat :=
  [0xd76aa478, 0xe8c7b756, 0x242070db, 0xc1bdceee,
   0xf57c0faf, 0x4787c62a, 0xa8304613, 0xfd469501,
   0x698098d8, 0x8b44f7af, 0xffff5bb1, 0x895cd7be,
   0x6b901122, 0xfd987193, 0xa679438e, 0x49b40821,
   0xf61e2562, 0xc040b340, 0x265e5a51, 0xe9b6c7aa,
   0xd62f105d, 0x02441453, 0xd8a1e681, 0xe7d3fbc8,
   0x21e1cde6, 0xc33707d6, 0xf4d50d87, 0x455a14ed,
   0xa9e3e905, 0xfcefa3f8, 0x676f02d9, 0x8d2a4c8a,
   0xfffa3942, 0x8771f681, 0x6d9d6122, 0xfde5380c,
   0xa4beea44, 0x4bdecfa9, 0xf6bb4b60, 0xbebfbc70,
   0x289b7ec6, 0xeaa127fa, 0xd4ef3085, 0x04881d05,
   0xd9d4d039, 0xe6db99e5, 0x1fa27cf8, 0xc4ac5665,
   0xf4292244, 0x432aff97, 0xab9423a7, 0xfc93a039,
   0x655b59c3, 0x8f0ccc92, 0xffeff47d, 0x85845dd1,
   0x6fa87e4f, 0xfe2ce6e0, 0xa3014314, 0x4e0811a1,
   0xf7537e82, 0xbd3af235, 0x2ad7d2bb, 0xeb86d391]

/-- The per-round left-rotation amounts (RFC 1321). -/
def md5S : List Nat :=
  [7, 12, 17, 22, 7, 12, 17, 22, 7, 12, 17, 22, 7, 12, 17, 22,
   5, 9, 14, 20, 5, 9, 14, 20, 5, 9, 14, 20, 5, 9, 14, 20,
   4, 11, 16, 23, 4, 11, 16, 23, 4, 11, 16, 23, 4, 11, 16, 23,
   6, 10, 15, 21, 6, 10, 15, 21, 6, 10, 15, 21, 6, 10, 15, 21]

/-- Rotate a 32-bit value left by `s` bits. -/
def rotl32 (x s : Nat) : Nat :=
  ((x <<< s) + (x >>> (32 - s))) % 4294967296

/-- The round-dependent mixing function of MD5. -/
def md5F (i b c d : Nat) : Nat :=
  if i < 16 then (b &&& c) ||| ((4294967295 - b) &&& d)
  else if i < 32 then (d &&& b) ||| ((4294967295 - d) &&& c)
  else if i < 48 then b ^^^ c ^^^ d
  else c ^^^ (b ||| (4294967295 - d))

/-- The round-dependent message-word index of MD5. -/
def md5G (i : Nat) : Nat :=
  if i < 16 then i
  else if i < 32 then (5 * i + 1) % 16
  else if i < 48 then (3 * i + 5) % 16
  else (7 * i) % 16

/-- One MD5 round on state `(a, b, c, d)` with message words `M`. -/
def md5step (M : List Nat) (st : Nat × Nat × Nat × Nat) (i : Nat) :
    Nat × Nat × Nat × Nat :=
  match st with
  | (a, b, c, d) =>
    let f := (md5F i b c d + a + md5K.getD i 0 + M.getD (md5G i) 0) % 4294967296
    (d, (b + rotl32 f (md5S.getD i 0)) % 4294967296, b, c)

/-- Little-endian 32-bit words of a byte chunk. -/
def md5words : List Nat → List Nat
  | b0 :: b1 :: b2 :: b3 :: rest =>
    (b0 + 256 * (b1 + 256 * (b2 + 256 * b3))) :: md5words rest
  | _ => []

/-- Process one 64-byte chunk: 64 rounds, then add into the running state. -/
def md5chunk (st : Nat × Nat × Nat × Nat) (M : List Nat) :
    Nat × Nat × Nat × Nat :=
  match st, (List.range 64).foldl (md5step M) st with
  | (a0, b0, c0, d0), (a, b, c, d) =>
    ((a0 + a) % 4294967296, (b0 + b) % 4294967296,
     (c0 + c) % 4294967296, (d0 + d) % 4294967296)

/-- Fold `md5chunk` over the padded message, 64 bytes at a time; the fuel
argument only bounds the recursion and any value at least the number of
chunks is enough. -/
def md5chunksFuel (fuel : Nat) (st : Nat × Nat × Nat × Nat) (bytes : List Nat) :
    Nat × Nat × Nat × Nat :=
  match fuel, bytes with
  | fuel' + 1, x :: rest =>
    md5chunksFuel fuel' (md5chunk st (md5words ((x :: rest).take 64)))
      ((x :: rest).drop 64)
  | _, _ => st

/-- Fold `md5chunk` over the whole padded message. -/
def md5chunksGo (st : Nat × Nat × Nat × Nat) (bytes : List Nat) :
    Nat × Nat × Nat × Nat :=
  md5chunksFuel bytes.length st bytes

/-- MD5 padding: `0x80`, zeros to 56 mod 64, then the 64-bit bit length
little-endian. -/
def md5pad (msg : List Nat) : List Nat :=
  let len := msg.length
  let z := (120 - ((len + 1) % 64)) % 64
  let bitLen := (8 * len) % 18446744073709551616
  msg ++ 128 :: List.replicate z 0 ++
    [bitLen % 256, (bitLen >>> 8) % 256, (bitLen >>> 16) % 256, (bitLen >>> 24) % 256,
     (bitLen >>> 32) % 256, (bitLen >>> 40) % 256, (bitLen >>> 48) % 256, (bitLen >>> 56) % 256]

/-- Little-endian bytes of a 32-bit word. -/
def wordLE (x : Nat) : List Nat :=
  [x % 256, (x >>> 8) % 256, (x >>> 16) % 256, (x >>> 24) % 256]

/-- MD5 digest (16 bytes) of a byte string. -/
def md5 (msg : List Nat) : List Nat :=
  match md5chunksGo (0x67452301, 0xefcdab89, 0x98badcfe, 0x10325476) (md5pad msg) with
  | (a, b, c, d) => wordLE a ++ wordLE b ++ wordLE c ++ wordLE d

/-- Lowercase hexadecimal digit for a value below 16. -/
def hexDigit (n : Nat) : Char :=
  Char.ofNat (if n < 10 then 48 + n else 87 + n)

/-- Lowercase hexadecimal rendering of the MD5 digest of a byte string,
as Python `hexdigest().lower()` returns it. -/
def md5hexBytes (msg : List Nat) : List Char :=
  ((md5 msg).map (fun b => [hexDigit (b >>> 4), hexDigit (b % 16)])).flatten

/-- Lowercase hex MD5 digest of the UTF-8 bytes of a string. -/
def md5hexStr (s : String) : String :=
  String.mk (md5hexBytes (utf8Encode s.data))

/-! ## The inline formatter: `re.sub` with two-character delimiters

Each of the four substitutions has the shape
`re.sub(open1 open2 (.*?) close1 close2, repl, text)`: global, non-greedy,
with `.` refusing newlines.  `findClose2 c1 c2 l` looks for the earliest
closing pair in `l` (stopping at a newline, which `.*?` cannot cross) and
returns the captured content together with the text after the closer. -/

/-- Scan for the earliest two-character closer `c1 c2`; return the content
before it and the remainder after it.  A newline aborts the scan, since
`(.*?)` cannot match across newlines. -/
def findClose2 (c1 c2 : Char) : List Char → Option (List Char × List Char)
  | x :: y :: rest =>
    if x = c1 ∧ y = c2 then some ([], rest)
    else if x = '\n' then none
    else (findClose2 c1 c2 (y :: rest)).map (fun p => (x :: p.1, p.2))
  | _ => none

/-- Length bookkeeping for `findClose2`: a successful scan consumes the
content, the two closer characters, and leaves the rest. -/
theorem findClose2_length (c1 c2 : Char) :
    ∀ l content rest, findClose2 c1 c2 l = some (content, rest) →
      rest.length + 2 + content.length = l.length := by
  intro l
  induction l with
  | nil => intro content rest h; simp [findClose2] at h
  | cons x t ih =>
    intro content rest h
    cases t with
    | nil => simp [findClose2] at h
    | cons y r =>
      rw [findClose2] at h
      split at h
      · cases h
        simp
      · split at h
        · cases h
        · cases hrec : findClose2 c1 c2 (y :: r) with
          | none => rw [hrec] at h; cases h
          | some p =>
            rw [hrec] at h
            cases p with
            | mk pc pr =>
              simp at h
              obtain ⟨h1, h2⟩ := h
              subst h1
              subst h2
              have := ih pc pr hrec
              simp only [List.length_cons] at this ⊢
              omega

/-- Fuel-bounded core of the `re.sub` embedding for a pattern
`o1 o2 (.*?) c1 c2`: scan left to right, replace every non-overlapping
match, leave everything else unchanged.  The fuel only bounds the
recursion; any value at least the text length is enough. -/
def sub2Fuel (o1 o2 c1 c2 : Char) (repl : List Char → List Char) :
    Nat → List Char → List Char
  | fuel + 1, x :: y :: rest =>
    if x = o1 ∧ y = o2 then
      match findClose2 c1 c2 rest with
      | some p => repl p.1 ++ sub2Fuel o1 o2 c1 c2 repl fuel p.2
      | none => x :: sub2Fuel o1 o2 c1 c2 repl fuel (y :: rest)
    else x :: sub2Fuel o1 o2 c1 c2 repl fuel (y :: rest)
  | _, l => l

/-- Embedding of `re.sub` for a pattern `o1 o2 (.*?) c1 c2` with a
replacement built from the captured group. -/
def sub2 (o1 o2 c1 c2 : Char) (repl : List Char → List Char)
    (l : List Char) : List Char :=
  sub2Fuel o1 o2 c1 c2 repl l.length l

/-- The scan does not depend on the fuel once the fuel covers the text
length. -/
theorem sub2Fuel_congr (o1 o2 c1 c2 : Char) (repl : List Char → List Char) :
    ∀ f1 f2 l, l.length ≤ f1 → l.length ≤ f2 →
      sub2Fuel o1 o2 c1 c2 repl f1 l = sub2Fuel o1 o2 c1 c2 repl f2 l := by
  intro f1
  induction f1 with
  | zero =>
    intro f2 l h1 _
    have : l = [] := List.eq_nil_of_length_eq_zero (Nat.le_zero.mp h1)
    subst this
    cases f2 <;> rfl
  | succ f1' ih =>
    intro f2 l h1 h2
    match l with
    | [] => cases f2 <;> rfl
    | [x] =>
      cases f2 with
      | zero => simp at h2
      | succ f2' => rfl
    | x :: y :: rest =>
      cases f2 with
      | zero => simp at h2
      | succ f2' =>
        simp only [List.length_cons] at h1 h2
        rw [sub2Fuel, sub2Fuel]
        by_cases hopen : x = o1 ∧ y = o2
        · rw [if_pos hopen, if_pos hopen]
          cases hf : findClose2 c1 c2 rest with
          | some p =>
            have hlen := findClose2_length c1 c2 rest p.1 p.2 (by rw [hf])
            show repl p.1 ++ sub2Fuel o1 o2 c1 c2 repl f1' p.2 =
              repl p.1 ++ sub2Fuel o1 o2 c1 c2 repl f2' p.2
            congr 1
            exact ih f2' p.2 (by omega) (by omega)
          | none =>
            show x :: sub2Fuel o1 o2 c1 c2 repl f1' (y :: rest) =
              x :: sub2Fuel o1 o2 c1 c2 repl f2' (y :: rest)
            congr 1
            exact ih f2' (y :: rest) (by simp; omega) (by simp; omega)
        · rw [if_neg hopen, if_neg hopen]
          congr 1
          exact ih f2' (y :: rest) (by simp; omega) (by simp; omega)

/-- Substitution 1 of the formatter: `\*\*(.*?)\*\*` to a bold span. -/
def subBold (l : List Char) : List Char :=
  sub2 '*' '*' '*' '*' (fun c => "<b>".data ++ c ++ "</b>".data) l

/-- Substitution 2 of the formatter: `__(.*?)__` to an emphasis span. -/
def subEm (l : List Char) : List Char :=
  sub2 '_' '_' '_' '_' (fun c => "<em>".data ++ c ++ "</em>".data) l

/-- Substitution 3 of the formatter: `\[\[(.*?)\]\]` to the lowercase hex
MD5 digest of the captured content's UTF-8 bytes. -/
def subMd5 (l : List Char) : List Char :=
  sub2 '[' '[' ']' ']' (fun c => md5hexBytes (utf8Encode c)) l

/-- The character deletion of `str.translate(str.maketrans('', '', 'cC'))`. -/
def stripCs (l : List Char) : List Char :=
  l.filter (fun ch => !(ch = 'c' || ch = 'C'))

/-- Substitution 4 of the formatter: `\(\((.*?)\)\)` to the captured content
with every `c` and `C` deleted. -/
def subStrip (l : List Char) : List Char :=
  sub2 '(' '(' ')' ')' stripCs l

/-- Embedding of `parse_inline_formatting`: the four substitutions applied
in order, each to the previous one's output. -/
def parse_inline_formatting (text : String) : String :=
  String.mk (subStrip (subMd5 (subEm (subBold text.data))))

/-! ## The block classifier -/

/-- Count of leading `#` characters, the greedy `(#+)` group of
`parse_heading`'s pattern. -/
def countHashes : List Char → Nat
  | c :: rest => if c = '#' then countHashes rest + 1 else 0
  | [] => 0

/-- The trailing `(.*)` group: everything up to a newline. -/
def captureAll : List Char → List Char
  | [] => []
  | c :: rest => if c = '\n' then [] else c :: captureAll rest

/-- Embedding of `parse_heading`: match `^(#+) (.*)`, clamp the level to 6
with `min`, and wrap the text in the heading tag. -/
def parse_heading (line : List Char) : Option String :=
  let k := countHashes line
  match line.drop k with
  | ' ' :: rest =>
    if 1 ≤ k then
      some ("<h" ++ toString (min k 6) ++ ">" ++ String.mk (captureAll rest)
        ++ "</h" ++ toString (min k 6) ++ ">")
    else none
  | _ => none

/-- Embedding of `parse_list_item`: match `^- (.*)` for `ul` or `^\* (.*)`
for `ol`, and wrap the inline-formatted payload in a list-item tag. -/
def parse_list_item (line : List Char) (list_type : String) : Option String :=
  let marker := if list_type = "ul" then '-' else '*'
  match line with
  | a :: b :: rest =>
    if a = marker ∧ b = ' ' then
      some ("<li>" ++ parse_inline_formatting (String.mk (captureAll rest)) ++ "</li>")
    else none
  | _ => none

/-! ## The block state machine of `convert_markdown_to_html` -/

/-- The converter's mutable state: `current_list` (`some "ul"`, `some "ol"`
or `none`) and `in_paragraph`. -/
structure ConvState where
  current_list : Option String
  in_paragraph : Bool
deriving DecidableEq, Repr

/-- Embedding of `close_blocks`: close the paragraph, then the list. -/
def close_blocks (current_list : Option String) (in_paragraph : Bool) :
    List String :=
  (if in_paragraph then ["</p>"] else []) ++
    (match current_list with
     | some l => ["</" ++ l ++ ">"]
     | none => [])

/-- Embedding of `handle_list_item`: the fragments it appends given the
state at entry. -/
def handle_list_item (item list_type : String) (current_list : Option String)
    (in_paragraph : Bool) : List String :=
  (if in_paragraph then ["</p>"] else []) ++
    (if current_list ≠ some list_type then
      (match current_list with
       | some l => ["</" ++ l ++ ">"]
       | none => []) ++ ["<" ++ list_type ++ ">"]
     else []) ++ [item]

/-- One iteration of the conversion loop: rstrip the raw line, dispatch on
blank / heading / unordered item / ordered item / paragraph text, and
return the next state together with the fragments appended. -/
def step (st : ConvState) (rawLine : String) : ConvState × List String :=
  let line := pyRstrip rawLine
  if line = "" then
    (⟨none, false⟩,
      (if st.in_paragraph then ["</p>"] else []) ++
        (match st.current_list with
         | some l => ["</" ++ l ++ ">"]
         | none => []))
  else
    match parse_heading line.data with
    | some heading =>
      (⟨none, false⟩, close_blocks st.current_list st.in_paragraph ++ [heading])
    | none =>
      match parse_list_item line.data "ul" with
      | some ul_item =>
        (⟨some "ul", false⟩,
          handle_list_item ul_item "ul" st.current_list st.in_paragraph)
      | none =>
        match parse_list_item line.data "ol" with
        | some ol_item =>
          (⟨some "ol", false⟩,
            handle_list_item ol_item "ol" st.current_list st.in_paragraph)
        | none =>
          (⟨st.current_list, true⟩,
            (if st.in_paragraph then ["<br/>"] else ["<p>"]) ++
              [parse_inline_formatting line])

/-- The state after feeding a list of raw lines through the loop. -/
def runState (st : ConvState) (lines : List String) : ConvState :=
  lines.foldl (fun s l => (step s l).1) st

/-- The fragments emitted while feeding a list of raw lines through the
loop (without the terminal `close_blocks`). -/
def emitted (st : ConvState) : List String → List String
  | [] => []
  | l :: ls => (step st l).2 ++ emitted (step st l).1 ls

/-- All fragments of a conversion from state `st`: the loop's emissions
followed by the terminal `close_blocks`. -/
def runLines (st : ConvState) (lines : List String) : List String :=
  emitted st lines ++
    close_blocks (runState st lines).current_list (runState st lines).in_paragraph

/-- The initial converter state. -/
def initState : ConvState := ⟨none, false⟩

/-- The fragment sequence `html_lines` produced by
`convert_markdown_to_html` on a file with the given content. -/
def convertFragments (content : String) : List String :=
  runLines initState (fileLines content)

/-- Embedding of `convert_markdown_to_html`: the text written to the output
file, i.e. the fragments joined with single newlines. -/
def convert_markdown_to_html (content : String) : String :=
  String.intercalate "\n" (convertFragments content)

/-! ## The CLI entry point

`main` touches `sys.argv`, `os.path.exists`, `sys.stderr` and `sys.exit`;
those externals are passed in as the argument vector and a file-existence
oracle, and the result is the exit status paired with the messages printed
to standard error. -/

/-- The usage message printed when arguments are missing. -/
def usageMsg : String := "Usage: ./markdown2html.py README.md README.html"

/-- Embedding of `main`: argument check, input-existence check, then the
successful conversion path exiting with status 0. -/
def mainCLI (argv : List String) (fileExists : String → Bool) :
    Nat × List String :=
  if argv.length < 3 then (1, [usageMsg])
  else if fileExists (argv.getD 1 "") = false then
    (1, ["Missing " ++ argv.getD 1 ""])
  else (0, [])

/-! ## Auxiliary notions used by the claims -/

/-- Content strings that the non-greedy scan captures in full: no early
two-character closer inside (also not straddling the final boundary) and
no newline. -/
def okContent (c1 c2 : Char) : List Char → Bool
  | [] => true
  | [x] => decide (¬(x = c1 ∧ c1 = c2)) && decide (x ≠ '\n')
  | x :: y :: rest =>
    decide (¬(x = c1 ∧ y = c2)) && decide (x ≠ '\n') && okContent c1 c2 (y :: rest)

/-- Number of unmatched open tags among `<p>`, `<ul>`, `<ol>` in a fragment
sequence. -/
def openDepth (frags : List String) : Nat :=
  frags.foldl
    (fun n f =>
      if f = "<p>" || f = "<ul>" || f = "<ol>" then n + 1
      else if f = "</p>" || f = "</ul>" || f = "</ol>" then n - 1
      else n) 0

end MD2HTML



namespace MD2HTML

/-! ## Lemmas about the substitution scanner -/

/-- Unfolding: the empty text is left unchanged. -/
theorem sub2_nil (o1 o2 c1 c2 : Char) (repl : List Char → List Char) :
    sub2 o1 o2 c1 c2 repl [] = [] := rfl

/-- Unfolding: a single character is left unchanged. -/
theorem sub2_single (o1 o2 c1 c2 : Char) (repl : List Char → List Char)
    (x : Char) : sub2 o1 o2 c1 c2 repl [x] = [x] := rfl

/-- Unfolding: a position where the opener does not match is copied and the
scan restarts one character later. -/
theorem sub2_not_open (o1 o2 c1 c2 : Char) (repl : List Char → List Char)
    (x y : Char) (rest : List Char) (h : ¬(x = o1 ∧ y = o2)) :
    sub2 o1 o2 c1 c2 repl (x :: y :: rest) =
      x :: sub2 o1 o2 c1 c2 repl (y :: rest) := by
  unfold sub2
  simp only [List.length_cons]
  rw [sub2Fuel, if_neg h]

/-- Unfolding: an opener with a reachable closer replaces the captured
content and continues after the closer. -/
theorem sub2_open_some (o1 o2 c1 c2 : Char) (repl : List Char → List Char)
    (rest content rest' : List Char)
    (hf : findClose2 c1 c2 rest = some (content, rest')) :
    sub2 o1 o2 c1 c2 repl (o1 :: o2 :: rest) =
      repl content ++ sub2 o1 o2 c1 c2 repl rest' := by
  have hlen := findClose2_length c1 c2 rest content rest' hf
  unfold sub2
  simp only [List.length_cons]
  rw [sub2Fuel, if_pos ⟨rfl, rfl⟩, hf]
  show repl content ++ sub2Fuel o1 o2 c1 c2 repl (rest.length + 1) rest' =
    repl content ++ sub2Fuel o1 o2 c1 c2 repl rest'.length rest'
  congr 1
  exact sub2Fuel_congr o1 o2 c1 c2 repl (rest.length + 1) rest'.length rest'
    (by omega) (Nat.le_refl _)

/-- A text containing no opener character at all is left unchanged. -/
theorem sub2_no_open (o1 o2 c1 c2 : Char) (repl : List Char → List Char) :
    ∀ l : List Char, (∀ c ∈ l, ¬ c = o1) → sub2 o1 o2 c1 c2 repl l = l := by
  intro l
  induction l with
  | nil => intro _; exact sub2_nil o1 o2 c1 c2 repl
  | cons x t ih =>
    intro h
    cases t with
    | nil => exact sub2_single o1 o2 c1 c2 repl x
    | cons y r =>
      have hx : ¬ x = o1 := h x (by simp)
      rw [sub2_not_open o1 o2 c1 c2 repl x y r (fun hc => hx hc.1)]
      rw [ih (fun c hc => h c (by simp [hc]))]

/-- On a good content string the scan captures exactly the content and
stops at the appended closer. -/
theorem okContent_findClose (c1 c2 : Char) :
    ∀ l : List Char, okContent c1 c2 l = true →
      findClose2 c1 c2 (l ++ [c1, c2]) = some (l, []) := by
  intro l
  induction l with
  | nil =>
    intro _
    simp [findClose2]
  | cons x t ih =>
    intro h
    cases t with
    | nil =>
      rw [okContent] at h
      simp only [Bool.and_eq_true, decide_eq_true_eq] at h
      have base : findClose2 c1 c2 [c1, c2] = some ([], []) := by
        rw [findClose2, if_pos ⟨rfl, rfl⟩]
      show findClose2 c1 c2 (x :: c1 :: c2 :: []) = some ([x], [])
      rw [findClose2, if_neg h.1, if_neg h.2, base]
      rfl
    | cons y r =>
      rw [okContent] at h
      simp only [Bool.and_eq_true, decide_eq_true_eq] at h
      obtain ⟨⟨h1, h2⟩, h3⟩ := h
      show findClose2 c1 c2 (x :: y :: (r ++ [c1, c2])) = some (x :: y :: r, [])
      rw [findClose2, if_neg h1, if_neg h2]
      have := ih h3
      rw [show (y :: r) ++ [c1, c2] = y :: (r ++ [c1, c2]) from rfl] at this
      rw [this]
      rfl

end MD2HTML

namespace MD2HTML

/-! ## Bytes and hex digits of the digest -/

/-- Rebuilding a string from its character data is the identity. -/
theorem string_mk_data (s : String) : String.mk s.data = s := rfl

/-- Every byte of an MD5 digest is below 256. -/
theorem md5_bytes_lt (msg : List Nat) : ∀ b ∈ md5 msg, b < 256 := by
  intro b hb
  unfold md5 at hb
  rcases h : md5chunksGo (0x67452301, 0xefcdab89, 0x98badcfe, 0x10325476) (md5pad msg)
    with ⟨a, b', c', d'⟩
  rw [h] at hb
  simp [wordLE] at hb
  rcases hb with
    hb | hb | hb | hb | hb | hb | hb | hb | hb | hb | hb | hb | hb | hb | hb | hb <;>
    subst hb <;> omega

/-- All sixteen hex digits land in the lowercase hex alphabet. -/
theorem hexDigit_mem : ∀ n, n < 16 → hexDigit n ∈ "0123456789abcdef".data := by
  decide

/-- Every character of the rendered digest is a lowercase hex digit. -/
theorem md5hexBytes_hex (msg : List Nat) :
    ∀ c ∈ md5hexBytes msg, c ∈ "0123456789abcdef".data := by
  intro c hc
  unfold md5hexBytes at hc
  simp only [List.mem_flatten, List.mem_map] at hc
  obtain ⟨piece, ⟨b, hbmem, hpiece⟩, hcpiece⟩ := hc
  subst hpiece
  have hb : b < 256 := md5_bytes_lt msg b hbmem
  have h4 : b >>> 4 < 16 := by
    rw [Nat.shiftRight_eq_div_pow]
    omega
  simp only [List.mem_cons, List.not_mem_nil, or_false] at hcpiece
  rcases hcpiece with hc1 | hc1 <;> subst hc1
  · exact hexDigit_mem _ h4
  · exact hexDigit_mem _ (Nat.mod_lt _ (by norm_num))

/-- No lowercase hex digit is an opening square bracket. -/
theorem hex_ne_bracket : ∀ c ∈ "0123456789abcdef".data, ¬ c = '[' := by
  decide

end MD2HTML

namespace MD2HTML

/-- C5: the digest substitution turns `[[s]]` into the deterministic
lowercase hex MD5 digest of `s`'s UTF-8 bytes (the digest depends only on
those bytes), and applying the substitution a second time to the result of
the first application on the original input changes nothing, since the
output no longer contains the delimiter. -/
theorem c5_digest_substitution (s : String)
    (h : okContent ']' ']' s.data = true) :
    subMd5 (("[[" ++ s ++ "]]").data) = md5hexBytes (utf8Encode s.data) ∧
    (∀ t : String, utf8Encode t.data = utf8Encode s.data →
      md5hexStr t = md5hexStr s) ∧
    (∀ c ∈ md5hexBytes (utf8Encode s.data), c ∈ "0123456789abcdef".data) ∧
    subMd5 (subMd5 (("[[" ++ s ++ "]]").data)) =
      subMd5 (("[[" ++ s ++ "]]").data) := by
  have e1 : "[[".data = ['[', '['] := rfl
  have e2 : "]]".data = [']', ']'] := rfl
  have hdata : ("[[" ++ s ++ "]]").data = '[' :: '[' :: (s.data ++ [']', ']']) := by
    rw [String.data_append, String.data_append, e1, e2, List.append_assoc]
    rfl
  have hmain : subMd5 ('[' :: '[' :: (s.data ++ [']', ']'])) =
      md5hexBytes (utf8Encode s.data) := by
    unfold subMd5
    rw [sub2_open_some '[' '[' ']' ']' _ _ _ _ (okContent_findClose ']' ']' s.data h)]
    rw [sub2_nil, List.append_nil]
  refine ⟨by rw [hdata]; exact hmain, ?_, md5hexBytes_hex _, ?_⟩
  · intro t ht
    unfold md5hexStr
    rw [ht]
  · rw [hdata, hmain]
    unfold subMd5
    exact sub2_no_open '[' '[' ']' ']' _ _
      (fun c hc => hex_ne_bracket c (md5hexBytes_hex _ c hc))

/-- Witness for C5 at the content string `abc`. -/
theorem c5_digest_substitution_witness :
    okContent ']' ']' "abc".data = true ∧
    (subMd5 (("[[" ++ "abc" ++ "]]").data) = md5hexBytes (utf8Encode "abc".data) ∧
    (∀ t : String, utf8Encode t.data = utf8Encode "abc".data →
      md5hexStr t = md5hexStr "abc") ∧
    (∀ c ∈ md5hexBytes (utf8Encode "abc".data), c ∈ "0123456789abcdef".data) ∧
    subMd5 (subMd5 (("[[" ++ "abc" ++ "]]").data)) =
      subMd5 (("[[" ++ "abc" ++ "]]").data)) :=
  ⟨by decide, c5_digest_substitution "abc" (by decide)⟩

/-- C6: the character-stripping substitution turns `((s))` into `s` with
every `c`/`C` removed and nothing else changed (the result is a sublist of
`s` free of `c` and `C`); stripping is idempotent and never lengthens. -/
theorem c6_strip_substitution (s : String)
    (h : okContent ')' ')' s.data = true) :
    subStrip (("((" ++ s ++ "))").data) = stripCs s.data ∧
    'c' ∉ stripCs s.data ∧
    'C' ∉ stripCs s.data ∧
    List.Sublist (stripCs s.data) s.data ∧
    stripCs (stripCs s.data) = stripCs s.data ∧
    (stripCs s.data).length ≤ s.data.length := by
  have e1 : "((".data = ['(', '('] := rfl
  have e2 : "))".data = [')', ')'] := rfl
  have hdata : ("((" ++ s ++ "))").data = '(' :: '(' :: (s.data ++ [')', ')']) := by
    rw [String.data_append, String.data_append, e1, e2, List.append_assoc]
    rfl
  refine ⟨?_, ?_, ?_, List.filter_sublist _, ?_, List.length_filter_le _ _⟩
  · rw [hdata]
    unfold subStrip
    rw [sub2_open_some '(' '(' ')' ')' _ _ _ _ (okContent_findClose ')' ')' s.data h)]
    rw [sub2_nil, List.append_nil]
  · intro hc
    have := (List.mem_filter.mp hc).2
    simp at this
  · intro hc
    have := (List.mem_filter.mp hc).2
    simp at this
  · apply List.filter_eq_self.mpr
    intro a ha
    exact (List.mem_filter.mp ha).2

/-- Witness for C6 at the content string `Chicago`. -/
theorem c6_strip_substitution_witness :
    okContent ')' ')' "Chicago".data = true ∧
    (subStrip (("((" ++ "Chicago" ++ "))").data) = stripCs "Chicago".data ∧
    'c' ∉ stripCs "Chicago".data ∧
    'C' ∉ stripCs "Chicago".data ∧
    List.Sublist (stripCs "Chicago".data) "Chicago".data ∧
    stripCs (stripCs "Chicago".data) = stripCs "Chicago".data ∧
    (stripCs "Chicago".data).length ≤ "Chicago".data.length) :=
  ⟨by decide, c6_strip_substitution "Chicago" (by decide)⟩

end MD2HTML

namespace MD2HTML

/-- C4 counterexample: in `((**c**))` the bold marker is resolved into a
tag before the strip substitution runs, so the output is `<b></b>` and no
literal asterisk survives, contrary to the claim that the markers are
stripped/preserved as literal characters and never resolved into tags. -/
theorem c4_raw_capture_counterexample :
    parse_inline_formatting "((**c**))" = "<b></b>" ∧
    '*' ∉ (parse_inline_formatting "((**c**))").data ∧
    parse_inline_formatting "((**c**))" ≠ "****" := by
  decide

end MD2HTML

namespace MD2HTML

/-- C4 amended: the digest and strip substitutions operate on the output
of the earlier bold/emphasis substitutions, so markers inside `[[...]]` or
`((...))` are first resolved into tags and the digest/strip then applies
to the resolved text. -/
theorem c4_sequential_substitution :
    parse_inline_formatting "[[**a**]]" = md5hexStr "<b>a</b>" ∧
    md5hexStr "<b>a</b>" ≠ md5hexStr "**a**" ∧
    parse_inline_formatting "((**c**))" = "<b></b>" := by
  decide

end MD2HTML

namespace MD2HTML

/-- C3: the end-to-end example produces exactly the expected fragment
sequence, and the final output is these fragments joined by single
newlines with nothing else added. -/
theorem c3_end_to_end :
    convertFragments "# Title\n\nHello **world**\n- one\n- two\n" =
      ["<h1>Title</h1>", "<p>", "Hello <b>world</b>", "</p>",
       "<ul>", "<li>one</li>", "<li>two</li>", "</ul>"] ∧
    convert_markdown_to_html "# Title\n\nHello **world**\n- one\n- two\n" =
      "<h1>Title</h1>\n<p>\nHello <b>world</b>\n</p>\n<ul>\n<li>one</li>\n<li>two</li>\n</ul>" := by
  decide

/-- C1 is violated by the code: on the input `- a` then `x` the paragraph
opens while the unordered list is still open, so the prefix of the
fragment sequence up to `<p>` has two unmatched open tags. -/
theorem c1_two_blocks_open :
    convertFragments "- a\nx\n" =
      ["<ul>", "<li>a</li>", "<p>", "x", "</p>", "</ul>"] ∧
    openDepth (List.take 3 (convertFragments "- a\nx\n")) = 2 := by
  decide

/-- C2 is violated by the code: with an unordered list open, a
paragraph-text line emits only `<p>` and the text, no `</ul>`, and the
next state still has the list open. -/
theorem c2_list_to_paragraph_step :
    step ⟨some "ul", false⟩ "x" = (⟨some "ul", true⟩, ["<p>", "x"]) ∧
    "</ul>" ∉ (step ⟨some "ul", false⟩ "x").2 := by
  decide

/-- C9: the CLI exits non-zero with a standard-error message when fewer
than two positional arguments are given or when the input file does not
exist, and exits zero on a successful run. -/
theorem c9_cli_exit_status (argv : List String) (fileExists : String → Bool) :
    (argv.length < 3 →
      (mainCLI argv fileExists).1 ≠ 0 ∧ (mainCLI argv fileExists).2 ≠ []) ∧
    (3 ≤ argv.length → fileExists (argv.getD 1 "") = false →
      (mainCLI argv fileExists).1 ≠ 0 ∧ (mainCLI argv fileExists).2 ≠ []) ∧
    (3 ≤ argv.length → fileExists (argv.getD 1 "") = true →
      mainCLI argv fileExists = (0, [])) := by
  refine ⟨?_, ?_, ?_⟩
  · intro hlt
    unfold mainCLI
    rw [if_pos hlt]
    exact ⟨by omega, by simp⟩
  · intro hge hex
    unfold mainCLI
    rw [if_neg (by omega), if_pos (by rw [hex])]
    exact ⟨by omega, by simp⟩
  · intro hge hex
    unfold mainCLI
    rw [if_neg (by omega), if_neg (by rw [hex]; simp)]

/-- Witness for C9 exercising all three branches at concrete inputs. -/
theorem c9_cli_exit_status_witness :
    ((mainCLI ["./markdown2html.py"] (fun _ => true)).1 ≠ 0 ∧
      (mainCLI ["./markdown2html.py"] (fun _ => true)).2 ≠ []) ∧
    ((mainCLI ["./markdown2html.py", "in.md", "out.html"] (fun _ => false)).1 ≠ 0 ∧
      (mainCLI ["./markdown2html.py", "in.md", "out.html"] (fun _ => false)).2 ≠ []) ∧
    mainCLI ["./markdown2html.py", "in.md", "out.html"] (fun _ => true) = (0, []) :=
  ⟨(c9_cli_exit_status ["./markdown2html.py"] (fun _ => true)).1 (by decide),
   (c9_cli_exit_status ["./markdown2html.py", "in.md", "out.html"]
     (fun _ => false)).2.1 (by decide) rfl,
   (c9_cli_exit_status ["./markdown2html.py", "in.md", "out.html"]
     (fun _ => true)).2.2 (by decide) rfl⟩

end MD2HTML

namespace MD2HTML

/-! ## Blank lines and the machine state -/

/-- A line that rstrips to empty takes the blank branch: it closes the
open paragraph and the open list (in that order) and clears the state. -/
theorem step_blank (st : ConvState) (b : String) (hb : pyRstrip b = "") :
    step st b = (⟨none, false⟩, close_blocks st.current_list st.in_paragraph) := by
  simp [step, hb, close_blocks]

/-- Running lines in two stages composes on the state. -/
theorem runState_append (st : ConvState) (l1 l2 : List String) :
    runState st (l1 ++ l2) = runState (runState st l1) l2 := by
  unfold runState
  exact List.foldl_append _ _ l1 l2

/-- Running lines in two stages concatenates the emitted fragments. -/
theorem emitted_append (l1 : List String) :
    ∀ (st : ConvState) (l2 : List String),
      emitted st (l1 ++ l2) = emitted st l1 ++ emitted (runState st l1) l2 := by
  induction l1 with
  | nil => intro st l2; simp [emitted, runState]
  | cons x t ih =>
    intro st l2
    simp only [List.cons_append, emitted, List.append_eq]
    rw [ih]
    simp [runState, List.append_assoc]

/-- C7: a blank (or all-whitespace) line closes whatever paragraph or list
is open — the machine state right after it is clean, the fragments it
emits are exactly the closers of the previously open blocks, and the rest
of the conversion proceeds from the clean state, so no block spans the
blank line. -/
theorem c7_blank_hard_separator (l1 l2 : List String) (b : String)
    (hb : pyRstrip b = "") :
    runState initState (l1 ++ [b]) = ⟨none, false⟩ ∧
    (step (runState initState l1) b).2 =
      close_blocks (runState initState l1).current_list
        (runState initState l1).in_paragraph ∧
    emitted initState (l1 ++ b :: l2) =
      emitted initState (l1 ++ [b]) ++ emitted ⟨none, false⟩ l2 := by
  have hA : runState initState (l1 ++ [b]) = ⟨none, false⟩ := by
    rw [runState_append]
    show (step (runState initState l1) b).1 = ⟨none, false⟩
    rw [step_blank _ _ hb]
  refine ⟨hA, ?_, ?_⟩
  · rw [step_blank _ _ hb]
  · have : l1 ++ b :: l2 = (l1 ++ [b]) ++ l2 := by simp
    rw [this, emitted_append, hA]

/-- Witness for C7: a list is open, the blank line `"   "` closes it. -/
theorem c7_blank_hard_separator_witness :
    pyRstrip "   " = "" ∧
    (runState initState (["- a"] ++ ["   "]) = ⟨none, false⟩ ∧
    (step (runState initState ["- a"]) "   ").2 =
      close_blocks (runState initState ["- a"]).current_list
        (runState initState ["- a"]).in_paragraph ∧
    emitted initState (["- a"] ++ "   " :: ["x"]) =
      emitted initState (["- a"] ++ ["   "]) ++ emitted ⟨none, false⟩ ["x"]) :=
  ⟨by decide, c7_blank_hard_separator ["- a"] ["x"] "   " (by decide)⟩

end MD2HTML

namespace MD2HTML

/-! ## Heading classification -/

/-- The greedy `(#+)` group of a line made of `n` hashes, a space and text
counts exactly the `n` hashes. -/
theorem countHashes_replicate (n : Nat) (t : List Char) :
    countHashes (List.replicate n '#' ++ ' ' :: t) = n := by
  induction n with
  | zero => simp [countHashes]
  | succ m ih => simp [List.replicate_succ, countHashes, ih]

/-- Dropping the hash run exposes the space and the text. -/
theorem drop_replicate (n : Nat) (l : List Char) :
    (List.replicate n '#' ++ l).drop n = l := by
  induction n with
  | zero => rfl
  | succ m ih => simp [List.replicate_succ, ih]

/-- The `(.*)` group captures a newline-free text in full. -/
theorem captureAll_no_newline :
    ∀ t : List Char, '\n' ∉ t → captureAll t = t := by
  intro t
  induction t with
  | nil => intro _; rfl
  | cons c rest ih =>
    intro h
    have hc : ¬ c = '\n' := fun hc => h (by simp [hc])
    simp only [captureAll, if_neg hc]
    rw [ih (fun hr => h (by simp [hr]))]

/-- C8: for every heading level 1–6, a line of that many hashes, a space
and text is classified as a heading whose single fragment wraps the text
verbatim — no bold, emphasis, digest or stripping substitution touches it. -/
theorem c8_heading_verbatim (n : Nat) (text : String)
    (h1 : 1 ≤ n) (h2 : n ≤ 6) (h3 : '\n' ∉ text.data) :
    parse_heading (List.replicate n '#' ++ ' ' :: text.data) =
      some ("<h" ++ toString n ++ ">" ++ text ++ "</h" ++ toString n ++ ">") := by
  simp only [parse_heading, countHashes_replicate, drop_replicate]
  rw [if_pos h1, Nat.min_eq_left h2, captureAll_no_newline text.data h3,
    string_mk_data]

/-- Witness for C8 at level 2 with formatting markers left untouched in
the heading text. -/
theorem c8_heading_verbatim_witness :
    (1 ≤ 2 ∧ 2 ≤ 6 ∧ '\n' ∉ "a **b**".data) ∧
    parse_heading (List.replicate 2 '#' ++ ' ' :: "a **b**".data) =
      some ("<h" ++ toString 2 ++ ">" ++ "a **b**" ++ "</h" ++ toString 2 ++ ">") :=
  ⟨⟨by decide, by decide, by decide⟩,
   c8_heading_verbatim 2 "a **b**" (by decide) (by decide) (by decide)⟩

/-- C10: a line of seven or more hashes followed by a space and text is
still classified as a heading, with the level clamped to 6. -/
theorem c10_heading_clamped (k : Nat) (text : String)
    (h1 : 7 ≤ k) (h3 : '\n' ∉ text.data) :
    parse_heading (List.replicate k '#' ++ ' ' :: text.data) =
      some ("<h" ++ toString 6 ++ ">" ++ text ++ "</h" ++ toString 6 ++ ">") := by
  simp only [parse_heading, countHashes_replicate, drop_replicate]
  rw [if_pos (by omega : 1 ≤ k), Nat.min_eq_right (by omega),
    captureAll_no_newline text.data h3, string_mk_data]

/-- Witness for C10 at seven hashes. -/
theorem c10_heading_clamped_witness :
    (7 ≤ 7 ∧ '\n' ∉ "seven".data) ∧
    parse_heading (List.replicate 7 '#' ++ ' ' :: "seven".data) =
      some ("<h" ++ toString 6 ++ ">" ++ "seven" ++ "</h" ++ toString 6 ++ ">") :=
  ⟨⟨by decide, by decide⟩, c10_heading_clamped 7 "seven" (by decide) (by decide)⟩

end MD2HTML
